import Mathlib

/-!
Verification of the sneakernet core (src-tauri/src) against its specification.

The Rust sources are shallowly embedded: pure logic is translated into
executable Lean definitions; bytes are `Nat` values below 256 carried in
`List Nat`; fallible operations return `Option` or `Except`.  External
cryptographic primitives (SHA-256, HKDF, Schnorr signatures, ed25519 key
generation, secp256k1 point validity) come from audited Rust crates and are
not reimplemented here; they are passed in as explicit function parameters
(`CryptoPrims`), so every theorem holds for any implementation of those
primitives.  Randomness, clocks and the network are likewise passed in as
explicit inputs.
-/

/-! ## Byte and hex utilities (hex crate as used by the sources) -/

deriving instance DecidableEq for Except

/-- Errors of `hex::decode` (the hex crate): odd input length, or a
character outside `[0-9a-fA-F]` at a byte index. -/
inductive HexError where
  | oddLength
  | invalidChar (c : Char) (idx : Nat)
deriving DecidableEq

/-- Value of a single hex digit, accepting `0-9`, `a-f` and `A-F`
exactly as the hex crate does. -/
def hexVal (c : Char) : Option Nat :=
  if 48 ≤ c.toNat ∧ c.toNat ≤ 57 then some (c.toNat - 48)
  else if 97 ≤ c.toNat ∧ c.toNat ≤ 102 then some (c.toNat - 87)
  else if 65 ≤ c.toNat ∧ c.toNat ≤ 70 then some (c.toNat - 55)
  else none

/-- Decode hex digit pairs into bytes, tracking the character index for
error reporting.  The odd-length case is caught by `hexDecodeStr` first. -/
def hexDecodeAux : Nat → List Char → Except HexError (List Nat)
  | _, [] => Except.ok []
  | i, c1 :: c2 :: rest =>
    match hexVal c1 with
    | none => Except.error (HexError.invalidChar c1 i)
    | some h =>
      match hexVal c2 with
      | none => Except.error (HexError.invalidChar c2 (i + 1))
      | some l =>
        match hexDecodeAux (i + 2) rest with
        | Except.error e => Except.error e
        | Except.ok bs => Except.ok ((16 * h + l) :: bs)
  | _, [_] => Except.error HexError.oddLength

/-- Model of `hex::decode` applied to a string. -/
def hexDecodeStr (s : String) : Except HexError (List Nat) :=
  if s.data.length % 2 ≠ 0 then Except.error HexError.oddLength
  else hexDecodeAux 0 s.data

/-- Lowercase hex digit character (the hex crate and serde_json both emit
lowercase). -/
def hexDigitChar (n : Nat) : Char :=
  if n < 10 then Char.ofNat (48 + n) else Char.ofNat (87 + n)

/-- Character list of `hex::encode`: two lowercase digits per byte. -/
def hexEncodeChars : List Nat → List Char
  | [] => []
  | b :: rest => hexDigitChar (b / 16) :: hexDigitChar (b % 16) :: hexEncodeChars rest

/-- Model of `hex::encode`. -/
def hexEncode (bytes : List Nat) : String :=
  String.mk (hexEncodeChars bytes)

/-- UTF-8 bytes of a string (`str::as_bytes` in Rust). -/
def strBytes (s : String) : List Nat :=
  s.toUTF8.toList.map fun b => b.toNat

/-- Lexicographic strict order on byte vectors: the `Ord` instance of
`Vec<u8>` used by `iroh_derive.rs` line 46 (`my_pubkey_bytes < their_pubkey_bytes`). -/
def bytesLt : List Nat → List Nat → Bool
  | [], [] => false
  | [], _ :: _ => true
  | _ :: _, [] => false
  | a :: as, b :: bs => if a < b then true else if b < a then false else bytesLt as bs

/-! ## External cryptographic primitives

The sources call into the sha2, hkdf, secp256k1 and iroh-base crates.  Per
the spec these primitives are collaborators, not part of the core; the
embedding takes them as an explicit parameter block so theorems quantify
over every implementation. -/

/-- Primitives supplied by external crates: SHA-256, one-shot
HKDF-SHA256 (extract with salt then expand with info to a length, `none`
models the expand error), Schnorr sign/verify over 32-byte digests,
secp256k1 x-only public key validity, and the ed25519 public key derived
from a 32-byte seed (`iroh_base::key::SecretKey::from_bytes` + `public`). -/
structure CryptoPrims where
  sha256 : List Nat → List Nat
  hkdfExpand : List Nat → List Nat → List Nat → Nat → Option (List Nat)
  schnorrSign : List Nat → List Nat → List Nat
  schnorrVerify : List Nat → List Nat → List Nat → Bool
  validXOnly : List Nat → Bool
  ed25519Public : List Nat → List Nat

/-! ## iroh_derive.rs -/

/-- Error type of `iroh_derive.rs` (`DeriveError`).  The Rust
`InvalidPublicKey` variant carries `e.to_string()` of the hex error; the
embedding carries the structured hex error instead. -/
inductive DeriveError where
  | InvalidSecretKeyLength
  | InvalidPublicKey (e : HexError)
  | HkdfExpansionFailed
deriving DecidableEq

/-- HKDF info string `b"sneakernet-iroh-v1"` (iroh_derive.rs line 63). -/
def irohInfo : List Nat :=
  strBytes "sneakernet-iroh-v1"

/-- Embedding of `derive_iroh_keypair` (iroh_derive.rs lines 29-71):
validate the 32-byte secret, hex-decode both public keys, sort the byte
vectors, hash the sorted concatenation into the HKDF salt, expand to a
32-byte seed, and build the iroh keypair from the seed.  The returned
pair is (secret seed bytes, derived public key bytes). -/
def derive_iroh_keypair (P : CryptoPrims) (nostr_secret_key : List Nat)
    (my_pubkey_hex their_pubkey_hex : String) :
    Except DeriveError (List Nat × List Nat) :=
  if nostr_secret_key.length ≠ 32 then
    Except.error DeriveError.InvalidSecretKeyLength
  else
    match hexDecodeStr my_pubkey_hex with
    | Except.error e => Except.error (DeriveError.InvalidPublicKey e)
    | Except.ok my_pubkey_bytes =>
      match hexDecodeStr their_pubkey_hex with
      | Except.error e => Except.error (DeriveError.InvalidPublicKey e)
      | Except.ok their_pubkey_bytes =>
        let fs :=
          if bytesLt my_pubkey_bytes their_pubkey_bytes then
            (my_pubkey_bytes, their_pubkey_bytes)
          else
            (their_pubkey_bytes, my_pubkey_bytes)
        let salt := P.sha256 (fs.1 ++ fs.2)
        match P.hkdfExpand salt nostr_secret_key irohInfo 32 with
        | none => Except.error DeriveError.HkdfExpansionFailed
        | some iroh_seed => Except.ok (iroh_seed, P.ed25519Public iroh_seed)

/-! ## exchange.rs -/

/-- Decimal digits of a natural number, most significant first: the
rendering used by Rust's `format!` for unsigned integers (and by
serde_json for them). -/
def natChars (n : Nat) : List Char :=
  if n < 10 then [Char.ofNat (48 + n)]
  else natChars (n / 10) ++ [Char.ofNat (48 + n % 10)]
termination_by n
decreasing_by exact Nat.div_lt_self (by omega) (by omega)

/-- Decimal string of a natural number. -/
def natStr (n : Nat) : String :=
  String.mk (natChars n)

/-- Error type of `exchange.rs` (`ExchangeError`). -/
inductive ExchangeError where
  | InvalidFormat (msg : String)
  | SignatureVerificationFailed
  | VersionMismatch (expected got : Nat)
  | InvalidPubkey
  | PubkeyMismatch
  | MessageExpired
  | SerializationError (msg : String)
  | SigningError (msg : String)
deriving DecidableEq

/-- Protocol version constant (exchange.rs line 11). -/
def PROTOCOL_VERSION : Nat := 1

/-- Exchange message sent over NFC (exchange.rs lines 39-48).  `version`
and `timestamp` are `u32`/`u64` in Rust; they are modelled as `Nat`, and
every operation below only produces or compares values inside the Rust
ranges. -/
structure ExchangeMessage where
  version : Nat
  msg_type : String
  pubkey : String
  their_pubkey : Option String
  timestamp : Nat
  nonce : String
  signature : String
deriving DecidableEq

/-- Canonical string that is hashed and signed, built by both
`ExchangeMessage::new` (lines 97-103) and `ExchangeMessage::verify`
(lines 165-171): `sneakernet:{pubkey}:{their_pubkey or empty}:{timestamp}:{nonce}`
(braces here only denote interpolation). -/
def signingString (pubkey : String) (their_pubkey : Option String)
    (timestamp : Nat) (nonce : String) : String :=
  "sneakernet:" ++ pubkey ++ ":" ++ their_pubkey.getD "" ++ ":"
    ++ natStr timestamp ++ ":" ++ nonce

/-- Canonical string reconstructed from a message's own fields, as
`verify` does. -/
def ExchangeMessage.signedContent (m : ExchangeMessage) : String :=
  signingString m.pubkey m.their_pubkey m.timestamp m.nonce

/-- Embedding of `ExchangeMessage::new` (exchange.rs lines 82-131).  The
current time, the 16 random nonce bytes and the secret key bytes are
environment inputs passed explicitly; `pubkey` is
`keys.public_key().to_hex()`.  The content string is hashed with SHA-256
and Schnorr-signed. -/
def ExchangeMessage.new (P : CryptoPrims) (secret_key_bytes : List Nat)
    (pubkey : String) (their_pubkey : Option String) (timestamp : Nat)
    (nonce_bytes : List Nat) : ExchangeMessage :=
  let nonce := hexEncode nonce_bytes
  let content := signingString pubkey their_pubkey timestamp nonce
  let hash := P.sha256 (strBytes content)
  let signature := P.schnorrSign secret_key_bytes hash
  { version := PROTOCOL_VERSION
    msg_type := "sneakernet-exchange"
    pubkey := pubkey
    their_pubkey := their_pubkey
    timestamp := timestamp
    nonce := nonce
    signature := hexEncode signature }

/-- Model of `nostr::PublicKey::from_hex` followed by
`XOnlyPublicKey::from_slice`: 64 hex characters decoding to 32 bytes that
form a valid secp256k1 x-only public key. -/
def pubkeyFromHex (P : CryptoPrims) (s : String) : Option (List Nat) :=
  match hexDecodeStr s with
  | Except.error _ => none
  | Except.ok bs => if bs.length = 32 ∧ P.validXOnly bs = true then some bs else none

/-- Check of exchange.rs lines 193-200: when an expected local pubkey is
supplied and the message names a counterpart, the two must coincide. -/
def pubkeyMismatchCheck (expected_our_pubkey their_pubkey : Option String) : Bool :=
  match expected_our_pubkey, their_pubkey with
  | some our, some their => their != our
  | _, _ => false

/-- Embedding of `ExchangeMessage::verify` (exchange.rs lines 144-213):
version check, message-type check, sender pubkey parse, canonical string
reconstruction and Schnorr verification, optional counterpart check, and
the 300-second staleness window.  `now` is the clock input. -/
def ExchangeMessage.verify (P : CryptoPrims) (m : ExchangeMessage)
    (expected_our_pubkey : Option String) (now : Nat) :
    Except ExchangeError Unit :=
  if m.version ≠ PROTOCOL_VERSION then
    Except.error (ExchangeError.VersionMismatch PROTOCOL_VERSION m.version)
  else if m.msg_type ≠ "sneakernet-exchange" then
    Except.error (ExchangeError.InvalidFormat "Invalid message type")
  else
    match pubkeyFromHex P m.pubkey with
    | none => Except.error ExchangeError.InvalidPubkey
    | some sender_pubkey =>
      match hexDecodeStr m.signature with
      | Except.error _ => Except.error ExchangeError.SignatureVerificationFailed
      | Except.ok sig_bytes =>
        if sig_bytes.length ≠ 64 then
          Except.error ExchangeError.SignatureVerificationFailed
        else if P.validXOnly sender_pubkey = false then
          Except.error ExchangeError.InvalidPubkey
        else if P.schnorrVerify sig_bytes (P.sha256 (strBytes m.signedContent))
            sender_pubkey = false then
          Except.error ExchangeError.SignatureVerificationFailed
        else if pubkeyMismatchCheck expected_our_pubkey m.their_pubkey then
          Except.error ExchangeError.PubkeyMismatch
        else if now > m.timestamp ∧ now - m.timestamp > 300 then
          Except.error ExchangeError.MessageExpired
        else
          Except.ok ()

/-! ## chat.rs — wire framing

`ChatManager::send_message` (lines 161-206) and `receive_message`
(lines 209-248) perform QUIC stream I/O; their pure framing cores are
embedded over explicit byte lists: `send_frame` is the size check plus
length-prefix framing done before the stream writes, and
`receive_frame` consumes the bytes a stream delivers (length prefix,
cap check before the body buffer is allocated, then exactly the
declared body). -/

/-- Maximum message size, 64 KiB (chat.rs line 16). -/
def MAX_MESSAGE_SIZE : Nat := 65536

/-- Error type of `chat.rs` (`ChatError`). -/
inductive ChatError where
  | NotConnected
  | SendFailed (msg : String)
  | ReceiveFailed (msg : String)
  | MessageTooLarge
  | InvalidFormat (msg : String)
deriving DecidableEq

/-- Value of `u32::from_be_bytes` on a 4-byte list. -/
def beU32 : List Nat → Nat
  | [a, b, c, d] => ((a * 256 + b) * 256 + c) * 256 + d
  | _ => 0

/-- Bytes of `(n as u32).to_be_bytes()` for `n < 2^32`. -/
def beBytes4 (n : Nat) : List Nat :=
  [n / 16777216 % 256, n / 65536 % 256, n / 256 % 256, n % 256]

/-- Model of `read_exact` on a byte stream: take exactly `n` bytes or
fail. -/
def takeExact (n : Nat) (l : List Nat) : Option (List Nat × List Nat) :=
  if l.length < n then none else some (l.take n, l.drop n)

/-- Framing core of `ChatManager::receive_message` (chat.rs lines
220-238): read the 4-byte big-endian length prefix, reject lengths over
the cap with `MessageTooLarge` before the body buffer is allocated or
any body byte is read, then read exactly the declared body. -/
def receive_frame (stream : List Nat) : Except ChatError (List Nat) :=
  match takeExact 4 stream with
  | none => Except.error (ChatError.ReceiveFailed "read length")
  | some (len_bytes, rest) =>
    if beU32 len_bytes > MAX_MESSAGE_SIZE then
      Except.error ChatError.MessageTooLarge
    else
      match takeExact (beU32 len_bytes) rest with
      | none => Except.error (ChatError.ReceiveFailed "read body")
      | some (data, _) => Except.ok data

/-- Framing core of `ChatManager::send_message` (chat.rs lines
171-194): reject serialized payloads over the cap with
`MessageTooLarge` before any stream is opened, else emit the length
prefix followed by the payload. -/
def send_frame (data : List Nat) : Except ChatError (List Nat) :=
  if data.length > MAX_MESSAGE_SIZE then
    Except.error ChatError.MessageTooLarge
  else
    Except.ok (beBytes4 data.length ++ data)

/-! ## serde_json model

`ExchangeMessage::to_json`/`from_json` (exchange.rs lines 134-141) and
`ChatMessage::to_wire`/`from_wire` (chat.rs lines 59-81) delegate to
serde_json over the derived `Serialize`/`Deserialize` impls.  The model
below reproduces serde_json's text format for the value shapes these two
structs use — objects whose values are strings, unsigned integers and
null: the printer emits fields in declaration order with serde_json's
exact string escaping (`\"`, `\\`, `\b`, `\t`, `\n`, `\f`, `\r`, and
`\u00XX` for the remaining control characters), and the parser mirrors
the derived visitor: it walks the key/value pairs in any order, fills
per-field slots, rejects duplicate fields, skips unknown fields, treats
a missing `Option` field as `None`, and requires the input to be fully
consumed.  Whitespace handling and the number shapes the structs never
use (signs, fractions, exponents) are omitted. -/

/-- serde_json escaping of one character inside a string literal. -/
def escapeChar (c : Char) : List Char :=
  if c = '\"' then ['\\', '\"']
  else if c = '\\' then ['\\', '\\']
  else if c.toNat = 8 then ['\\', 'b']
  else if c.toNat = 9 then ['\\', 't']
  else if c.toNat = 10 then ['\\', 'n']
  else if c.toNat = 12 then ['\\', 'f']
  else if c.toNat = 13 then ['\\', 'r']
  else if c.toNat < 32 then
    ['\\', 'u', '0', '0', hexDigitChar (c.toNat / 16), hexDigitChar (c.toNat % 16)]
  else [c]

/-- Escape every character of a string body. -/
def escapeList : List Char → List Char
  | [] => []
  | c :: cs => escapeChar c ++ escapeList cs

/-- JSON string literal of a Lean string: quote, escaped body, quote. -/
def strLit (s : String) : List Char :=
  '\"' :: escapeList s.data ++ ['\"']

/-- JSON rendering of an `Option String` field: `null` or a string
literal (serde serializes `None` as `null`). -/
def optStrLit : Option String → List Char
  | none => ['n', 'u', 'l', 'l']
  | some s => strLit s

/-- Prepend a character to the string being accumulated by
`parseStrBody`. -/
def consFst (c : Char) : Option (List Char × List Char) → Option (List Char × List Char)
  | none => none
  | some (s, r) => some (c :: s, r)

/-- Parse a JSON string body (after the opening quote) up to the closing
quote, handling every escape serde_json accepts; `\uXXXX` must denote a
valid scalar value (the printer only emits `\u00XX` for control
characters, and surrogate pairs never arise from it). -/
def parseStrBody : List Char → Option (List Char × List Char)
  | [] => none
  | c :: rest =>
    if c = '\"' then some ([], rest)
    else if c = '\\' then
      match rest with
      | [] => none
      | e :: rest2 =>
        if e = '\"' then consFst '\"' (parseStrBody rest2)
        else if e = '\\' then consFst '\\' (parseStrBody rest2)
        else if e = '/' then consFst '/' (parseStrBody rest2)
        else if e = 'b' then consFst (Char.ofNat 8) (parseStrBody rest2)
        else if e = 't' then consFst (Char.ofNat 9) (parseStrBody rest2)
        else if e = 'n' then consFst (Char.ofNat 10) (parseStrBody rest2)
        else if e = 'f' then consFst (Char.ofNat 12) (parseStrBody rest2)
        else if e = 'r' then consFst (Char.ofNat 13) (parseStrBody rest2)
        else if e = 'u' then
          match rest2 with
          | h1 :: h2 :: h3 :: h4 :: rest3 =>
            match hexVal h1, hexVal h2, hexVal h3, hexVal h4 with
            | some a, some b, some c2, some d =>
              if Nat.isValidChar (((a * 16 + b) * 16 + c2) * 16 + d) then
                consFst (Char.ofNat (((a * 16 + b) * 16 + c2) * 16 + d))
                  (parseStrBody rest3)
              else none
            | _, _, _, _ => none
          | _ => none
        else none
    else consFst c (parseStrBody rest)

/-- Parse a JSON string value: opening quote then body. -/
def parseStringValue (l : List Char) : Option (String × List Char) :=
  match l with
  | [] => none
  | c :: rest =>
    if c = '\"' then
      match parseStrBody rest with
      | none => none
      | some (s, r) => some (String.mk s, r)
    else none

/-- ASCII decimal digit test. -/
def isDigitChar (c : Char) : Bool :=
  48 ≤ c.toNat && c.toNat ≤ 57

/-- Numeric value of a digit string, most significant first. -/
def digitsVal (ds : List Char) : Nat :=
  ds.foldl (fun a c => a * 10 + (c.toNat - 48)) 0

/-- Parse a non-empty run of decimal digits as an unsigned integer (the
only number shape the two structs contain). -/
def parseNat (l : List Char) : Option (Nat × List Char) :=
  let ds := l.takeWhile isDigitChar
  if ds.length = 0 then none
  else some (digitsVal ds, l.dropWhile isDigitChar)

/-- Parse a JSON value for an `Option String` field: `null` or a
string. -/
def parseOptString (l : List Char) : Option (Option String × List Char) :=
  if l.take 4 = ['n', 'u', 'l', 'l'] then some (none, l.drop 4)
  else
    match parseStringValue l with
    | none => none
    | some (s, r) => some (some s, r)

/-- Skip one JSON value of any shape these structs can meet (string,
unsigned integer or null); used for unknown fields, which the derived
deserializer ignores. -/
def parseAnyValue (l : List Char) : Option (List Char) :=
  if l.take 4 = ['n', 'u', 'l', 'l'] then some (l.drop 4)
  else
    match parseStringValue l with
    | some (_, r) => some r
    | none =>
      match parseNat l with
      | some (_, r) => some r
      | none => none

/-- Per-field slots filled by the `ExchangeMessage` deserializer; for
`their_pubkey` the outer option distinguishes a missing field from an
explicit `null`. -/
structure ExSlots where
  version : Option Nat := none
  msg_type : Option String := none
  pubkey : Option String := none
  their_pubkey : Option (Option String) := none
  timestamp : Option Nat := none
  nonce : Option String := none
  signature : Option String := none

/-- Field loop of the derived `ExchangeMessage` deserializer: repeatedly
parse `"key": value`, dispatch on the serde-renamed key, reject
duplicates, skip unknown fields, and stop at the closing brace.  `fuel`
only bounds the recursion; every iteration consumes input, so any fuel
of at least the input length plus one behaves as unbounded. -/
def parseExFields : Nat → List Char → ExSlots → Option (ExSlots × List Char)
  | 0, _, _ => none
  | fuel + 1, l, acc =>
    match parseStringValue l with
    | none => none
    | some (key, r1) =>
      match r1 with
      | [] => none
      | c :: r2 =>
        if c = ':' then
          match
            (if key = "version" then
              match acc.version with
              | some _ => none
              | none =>
                match parseNat r2 with
                | none => none
                | some (v, r3) => some ({ acc with version := some v }, r3)
            else if key = "type" then
              match acc.msg_type with
              | some _ => none
              | none =>
                match parseStringValue r2 with
                | none => none
                | some (s, r3) => some ({ acc with msg_type := some s }, r3)
            else if key = "pubkey" then
              match acc.pubkey with
              | some _ => none
              | none =>
                match parseStringValue r2 with
                | none => none
                | some (s, r3) => some ({ acc with pubkey := some s }, r3)
            else if key = "theirPubkey" then
              match acc.their_pubkey with
              | some _ => none
              | none =>
                match parseOptString r2 with
                | none => none
                | some (o, r3) => some ({ acc with their_pubkey := some o }, r3)
            else if key = "timestamp" then
              match acc.timestamp with
              | some _ => none
              | none =>
                match parseNat r2 with
                | none => none
                | some (v, r3) => some ({ acc with timestamp := some v }, r3)
            else if key = "nonce" then
              match acc.nonce with
              | some _ => none
              | none =>
                match parseStringValue r2 with
                | none => none
                | some (s, r3) => some ({ acc with nonce := some s }, r3)
            else if key = "signature" then
              match acc.signature with
              | some _ => none
              | none =>
                match parseStringValue r2 with
                | none => none
                | some (s, r3) => some ({ acc with signature := some s }, r3)
            else
              match parseAnyValue r2 with
              | none => none
              | some r3 => some (acc, r3))
          with
          | none => none
          | some (acc2, r3) =>
            match r3 with
            | [] => none
            | c2 :: r4 =>
              if c2 = ',' then parseExFields fuel r4 acc2
              else if c2 = '\x7d' then some (acc2, r4)
              else none
        else none

/-- Characters of the serialized `ExchangeMessage` between the braces:
fields in declaration order under `rename_all = "camelCase"` and the
`rename = "type"` attribute (exchange.rs lines 37-48). -/
def exchangeFieldsChars (m : ExchangeMessage) : List Char :=
  strLit "version" ++ [':'] ++ natChars m.version
    ++ [','] ++ strLit "type" ++ [':'] ++ strLit m.msg_type
    ++ [','] ++ strLit "pubkey" ++ [':'] ++ strLit m.pubkey
    ++ [','] ++ strLit "theirPubkey" ++ [':'] ++ optStrLit m.their_pubkey
    ++ [','] ++ strLit "timestamp" ++ [':'] ++ natChars m.timestamp
    ++ [','] ++ strLit "nonce" ++ [':'] ++ strLit m.nonce
    ++ [','] ++ strLit "signature" ++ [':'] ++ strLit m.signature
    ++ ['\x7d']

/-- Characters of `serde_json::to_string` for an `ExchangeMessage`. -/
def exchangeJsonChars (m : ExchangeMessage) : List Char :=
  '\x7b' :: exchangeFieldsChars m

/-- Embedding of `ExchangeMessage::to_json` (exchange.rs lines
134-136); serialization of this struct cannot fail, so the `Result` is
always `Ok` and the model returns the string directly. -/
def ExchangeMessage.to_json (m : ExchangeMessage) : String :=
  String.mk (exchangeJsonChars m)

/-- Parser core of `ExchangeMessage::from_json`: expect an object, run
the field loop, require the input consumed and all non-optional fields
present; a missing `theirPubkey` is `None`. -/
def from_jsonChars (l : List Char) : Except ExchangeError ExchangeMessage :=
  match l with
  | [] => Except.error (ExchangeError.InvalidFormat "empty input")
  | c :: rest =>
    if c = '\x7b' then
      match parseExFields (rest.length + 1) rest {} with
      | none => Except.error (ExchangeError.InvalidFormat "invalid JSON")
      | some (acc, rest2) =>
        if rest2 = [] then
          match acc.version, acc.msg_type, acc.pubkey, acc.timestamp,
              acc.nonce, acc.signature with
          | some v, some t, some pk, some ts, some nc, some sg =>
            Except.ok
              { version := v, msg_type := t, pubkey := pk,
                their_pubkey :=
                  (match acc.their_pubkey with
                   | none => none
                   | some o => o),
                timestamp := ts, nonce := nc, signature := sg }
          | _, _, _, _, _, _ =>
            Except.error (ExchangeError.InvalidFormat "missing field")
        else Except.error (ExchangeError.InvalidFormat "trailing characters")
    else Except.error (ExchangeError.InvalidFormat "expected object")

/-- Embedding of `ExchangeMessage::from_json` (exchange.rs lines
139-141). -/
def ExchangeMessage.from_json (s : String) : Except ExchangeError ExchangeMessage :=
  from_jsonChars s.data

/-- A chat message (chat.rs lines 35-41). -/
structure ChatMessage where
  id : String
  content : String
  sender_pubkey : String
  timestamp : Nat
  is_outgoing : Bool
deriving DecidableEq

/-- Wire format of a chat message (chat.rs lines 86-90): only `id`,
`content` and `timestamp` travel on the wire. -/
structure WireMessage where
  id : String
  content : String
  timestamp : Nat
deriving DecidableEq

/-- Characters of the serialized `WireMessage` between the braces. -/
def wireFieldsChars (w : WireMessage) : List Char :=
  strLit "id" ++ [':'] ++ strLit w.id
    ++ [','] ++ strLit "content" ++ [':'] ++ strLit w.content
    ++ [','] ++ strLit "timestamp" ++ [':'] ++ natChars w.timestamp
    ++ ['\x7d']

/-- Characters of `serde_json::to_vec` for a `WireMessage` (the bytes
are the UTF-8 encoding of this character sequence). -/
def wireJsonChars (w : WireMessage) : List Char :=
  '\x7b' :: wireFieldsChars w

/-- Embedding of `ChatMessage::to_wire` (chat.rs lines 73-81): project
the wire fields and serialize; serialization of this struct cannot
fail. -/
def ChatMessage.to_wire (m : ChatMessage) : String :=
  String.mk (wireJsonChars { id := m.id, content := m.content, timestamp := m.timestamp })

/-- Per-field slots of the `WireMessage` deserializer. -/
structure WireSlots where
  id : Option String := none
  content : Option String := none
  timestamp : Option Nat := none

/-- Field loop of the derived `WireMessage` deserializer, mirroring
`parseExFields`. -/
def parseWireFields : Nat → List Char → WireSlots → Option (WireSlots × List Char)
  | 0, _, _ => none
  | fuel + 1, l, acc =>
    match parseStringValue l with
    | none => none
    | some (key, r1) =>
      match r1 with
      | [] => none
      | c :: r2 =>
        if c = ':' then
          match
            (if key = "id" then
              match acc.id with
              | some _ => none
              | none =>
                match parseStringValue r2 with
                | none => none
                | some (s, r3) => some ({ acc with id := some s }, r3)
            else if key = "content" then
              match acc.content with
              | some _ => none
              | none =>
                match parseStringValue r2 with
                | none => none
                | some (s, r3) => some ({ acc with content := some s }, r3)
            else if key = "timestamp" then
              match acc.timestamp with
              | some _ => none
              | none =>
                match parseNat r2 with
                | none => none
                | some (v, r3) => some ({ acc with timestamp := some v }, r3)
            else
              match parseAnyValue r2 with
              | none => none
              | some r3 => some (acc, r3))
          with
          | none => none
          | some (acc2, r3) =>
            match r3 with
            | [] => none
            | c2 :: r4 =>
              if c2 = ',' then parseWireFields fuel r4 acc2
              else if c2 = '\x7d' then some (acc2, r4)
              else none
        else none

/-- Parser core of `ChatMessage::from_wire`: expect an object, run the
field loop, require the input consumed and all fields present. -/
def from_wireChars (l : List Char) (sender_pubkey : String) :
    Except ChatError ChatMessage :=
  match l with
  | [] => Except.error (ChatError.InvalidFormat "empty input")
  | c :: rest =>
    if c = '\x7b' then
      match parseWireFields (rest.length + 1) rest {} with
      | none => Except.error (ChatError.InvalidFormat "invalid JSON")
      | some (acc, rest2) =>
        if rest2 = [] then
          match acc.id, acc.content, acc.timestamp with
          | some i, some ct, some ts =>
            Except.ok
              { id := i, content := ct, sender_pubkey := sender_pubkey,
                timestamp := ts, is_outgoing := false }
          | _, _, _ => Except.error (ChatError.InvalidFormat "missing field")
        else Except.error (ChatError.InvalidFormat "trailing characters")
    else Except.error (ChatError.InvalidFormat "expected object")

/-- Embedding of `ChatMessage::from_wire` (chat.rs lines 59-70): parse
the wire JSON (the bytes decoded from UTF-8), take the sender from the
connection's known contact key, and mark the message incoming. -/
def ChatMessage.from_wire (s : String) (sender_pubkey : String) :
    Except ChatError ChatMessage :=
  from_wireChars s.data sender_pubkey

/-! ## commands.rs — contact list operations -/

/-- Contact stored after a successful exchange (exchange.rs lines
53-59). -/
structure Contact where
  id : String
  nostr_pubkey : String
  iroh_endpoint_id : String
  exchanged_at : Nat
  nickname : Option String
deriving DecidableEq

/-- Embedding of `Contact::new` (exchange.rs lines 218-231); the UUID
and the clock are environment inputs. -/
def Contact.new (their_pubkey iroh_endpoint_id : String) (id : String)
    (now : Nat) : Contact :=
  { id := id
    nostr_pubkey := their_pubkey
    iroh_endpoint_id := iroh_endpoint_id
    exchanged_at := now
    nickname := none }

/-- Contact-list core of `complete_exchange` (commands.rs lines
264-276): build the new contact, and insert it at the front only when no
stored contact already has the counterpart pubkey.  Returns the stored
list and the returned contact. -/
def complete_exchange_contacts (contacts : List Contact)
    (their_pubkey iroh_endpoint_id id : String) (now : Nat) :
    List Contact × Contact :=
  let contact := Contact.new their_pubkey iroh_endpoint_id id now
  if contacts.any fun c => c.nostr_pubkey == their_pubkey then
    (contacts, contact)
  else
    (contact :: contacts, contact)

/-- List core of `delete_contact` (commands.rs lines 289-293):
`retain(|c| c.id != id)`. -/
def delete_contact_list (contacts : List Contact) (id : String) : List Contact :=
  contacts.filter fun c => c.id != id

/-- Invariant: no two stored contacts share a counterpart nostr pubkey. -/
def contactsNoDup (contacts : List Contact) : Prop :=
  (contacts.map fun c => c.nostr_pubkey).Nodup

/-! ## iroh_node.rs -/

/-- Error type of `iroh_node.rs` (`IrohError`). -/
inductive IrohError where
  | NotStarted
  | AlreadyRunning
  | EndpointCreation (msg : String)
  | ConnectionFailed (msg : String)
  | KeyDerivation (msg : String)
  | InvalidNodeId (msg : String)
deriving DecidableEq

/-- Display string of a `DeriveError` (thiserror messages, abbreviated:
the Rust `InvalidPublicKey` message also appends the hex error text). -/
def DeriveError.describe : DeriveError → String
  | DeriveError.InvalidSecretKeyLength => "Invalid secret key length"
  | DeriveError.InvalidPublicKey _ => "Invalid public key format"
  | DeriveError.HkdfExpansionFailed => "HKDF expansion failed"

/-- A bound iroh endpoint, abstracted to its observable node id. -/
structure Endpoint where
  node_id : String
deriving DecidableEq

/-- An open QUIC connection, abstracted to an opaque token. -/
structure Connection where
  conn_id : Nat
deriving DecidableEq

/-- Configuration of the iroh node (iroh_node.rs lines 49-54). -/
structure IrohConfig where
  use_relays : Bool
  custom_relay_url : Option String
deriving DecidableEq

/-- Managed iroh node state (iroh_node.rs lines 66-73); the `HashMap`
of connections keyed by contact pubkey is modelled as an association
list with no duplicate keys by construction. -/
structure IrohNode where
  endpoint : Option Endpoint
  config : IrohConfig
  current_contact : Option String
  connections : List (String × Connection)
deriving DecidableEq

/-- Status snapshot (iroh_node.rs lines 40-45). -/
structure IrohStatus where
  running : Bool
  node_id : Option String
  relay_url : Option String
  connected_contacts : List String
deriving DecidableEq

/-- Embedding of `IrohNode::status` (iroh_node.rs lines 138-145). -/
def IrohNode.status (n : IrohNode) : IrohStatus :=
  { running := n.endpoint.isSome
    node_id := n.endpoint.map fun e => e.node_id
    relay_url := none
    connected_contacts := n.connections.map Prod.fst }

/-- Embedding of `IrohNode::start_for_contact` (iroh_node.rs lines
86-121).  The network bind (`Endpoint::builder()...bind()`) is an
external effect passed in as `bind`, mapping the derived secret seed to
either an error string or a live endpoint.  Returns the new state and
the result. -/
def IrohNode.start_for_contact (P : CryptoPrims)
    (bind : List Nat → Except String Endpoint) (n : IrohNode)
    (nostr_secret_key : List Nat) (my_pubkey_hex their_pubkey_hex : String) :
    IrohNode × Except IrohError String :=
  if n.endpoint.isSome then
    (n, Except.error IrohError.AlreadyRunning)
  else
    match derive_iroh_keypair P nostr_secret_key my_pubkey_hex their_pubkey_hex with
    | Except.error e => (n, Except.error (IrohError.KeyDerivation e.describe))
    | Except.ok (secret_key, _) =>
      match bind secret_key with
      | Except.error e => (n, Except.error (IrohError.EndpointCreation e))
      | Except.ok endpoint =>
        ({ n with endpoint := some endpoint,
                  current_contact := some their_pubkey_hex },
         Except.ok endpoint.node_id)

/-- Observable effects of `IrohNode::stop`, in program order. -/
inductive StopStep where
  | dropConnections
  | closeEndpoint
deriving DecidableEq

/-- Embedding of `IrohNode::stop` (iroh_node.rs lines 124-135).  When an
endpoint is live it first clears (drops) every stored connection, then
closes the endpoint — the emitted `StopStep` trace records that order —
and clears the current contact; when no endpoint is live it does nothing
and still returns success. -/
def IrohNode.stop (n : IrohNode) :
    IrohNode × List StopStep × Except IrohError Unit :=
  match n.endpoint with
  | some _ =>
    ({ n with endpoint := none, connections := [], current_contact := none },
     [StopStep.dropConnections, StopStep.closeEndpoint], Except.ok ())
  | none => (n, [], Except.ok ())

/-- Insert/replace in the association-list model of
`HashMap::insert`. -/
def insertConn (k : String) (v : Connection) :
    List (String × Connection) → List (String × Connection)
  | [] => [(k, v)]
  | (k2, v2) :: rest =>
    if k2 = k then (k, v) :: rest else (k2, v2) :: insertConn k v rest

/-- Embedding of `IrohNode::connect_to_contact` (iroh_node.rs lines
148-169).  Node-id parsing and the network connect are external effects
passed in as `parse_node_id` and `connect`. -/
def IrohNode.connect_to_contact (parse_node_id : String → Except String String)
    (connect : String → Except String Connection) (n : IrohNode)
    (their_node_id contact_pubkey : String) :
    IrohNode × Except IrohError Unit :=
  match n.endpoint with
  | none => (n, Except.error IrohError.NotStarted)
  | some _ =>
    match parse_node_id their_node_id with
    | Except.error e => (n, Except.error (IrohError.InvalidNodeId e))
    | Except.ok node_id =>
      match connect node_id with
      | Except.error e => (n, Except.error (IrohError.ConnectionFailed e))
      | Except.ok conn =>
        ({ n with connections := insertConn contact_pubkey conn n.connections },
         Except.ok ())

/-- Concrete primitive block used by witnesses; any implementation works,
this one keeps evaluation trivial. -/
def witnessPrims : CryptoPrims where
  sha256 := fun l => l
  hkdfExpand := fun _ _ _ _ => some []
  schnorrSign := fun _ _ => []
  schnorrVerify := fun _ _ _ => true
  validXOnly := fun _ => true
  ed25519Public := fun l => l

/-- Concrete well-formed exchange message used by witnesses. -/
def exMsg0 : ExchangeMessage where
  version := 1
  msg_type := "sneakernet-exchange"
  pubkey := hexEncode (List.replicate 32 0)
  their_pubkey := none
  timestamp := 1000
  nonce := "00"
  signature := hexEncode (List.replicate 64 0)

/-- Concrete response-style exchange message (with a named counterpart)
used by witnesses. -/
def exMsg1 : ExchangeMessage :=
  { exMsg0 with their_pubkey := some "ab" }

/-- Concrete bound node used by witnesses. -/
def nodeBound : IrohNode where
  endpoint := some { node_id := "nid" }
  config := { use_relays := true, custom_relay_url := none }
  current_contact := some "cc"
  connections := [("cc", { conn_id := 0 })]

/-- Concrete unbound node used by witnesses. -/
def nodeUnbound : IrohNode where
  endpoint := none
  config := { use_relays := true, custom_relay_url := none }
  current_contact := none
  connections := []

/-! ## Theorems -/

theorem bytesLt_asymm : ∀ {a b : List Nat}, bytesLt a b = true → bytesLt b a = false := by
  intro a
  induction a with
  | nil =>
    intro b h
    cases b with
    | nil => simp [bytesLt] at h
    | cons y ys => simp [bytesLt]
  | cons x xs ih =>
    intro b h
    cases b with
    | nil => simp [bytesLt] at h
    | cons y ys =>
      simp only [bytesLt] at h ⊢
      by_cases h1 : x < y
      · have h2 : ¬ y < x := by omega
        simp [h1, h2]
      · by_cases h2 : y < x
        · simp [h1, h2] at h
        · simp only [h1, h2, if_false] at h ⊢
          exact ih h

theorem bytesLt_both_false : ∀ {a b : List Nat},
    bytesLt a b = false → bytesLt b a = false → a = b := by
  intro a
  induction a with
  | nil =>
    intro b hab _
    cases b with
    | nil => rfl
    | cons y ys => simp [bytesLt] at hab
  | cons x xs ih =>
    intro b hab hba
    cases b with
    | nil => simp [bytesLt] at hba
    | cons y ys =>
      simp only [bytesLt] at hab hba
      by_cases h1 : x < y
      · simp [h1] at hab
      · by_cases h2 : y < x
        · simp [h1, h2] at hba
        · have hxy : x = y := by omega
          subst hxy
          simp only [h1, h2, if_false] at hab hba
          rw [ih hab hba]

/-- C1: for a 32-byte secret and hex-decodable public keys `A` and `B`,
`derive_iroh_keypair secret A B = derive_iroh_keypair secret B A`: the
HKDF salt is computed over the byte-wise sorted pair, so swapping the
local and counterpart keys yields the same derived keypair. -/
theorem derive_iroh_keypair_order_independent (P : CryptoPrims)
    (secret a b : List Nat) (A B : String)
    (hs : secret.length = 32)
    (hA : hexDecodeStr A = Except.ok a)
    (hB : hexDecodeStr B = Except.ok b) :
    derive_iroh_keypair P secret A B = derive_iroh_keypair P secret B A := by
  unfold derive_iroh_keypair
  rw [hA, hB, hs]
  simp only [ne_eq, not_true_eq_false, if_false]
  by_cases h1 : bytesLt a b = true
  · have h2 : bytesLt b a = false := bytesLt_asymm h1
    simp [h1, h2]
  · have h1f : bytesLt a b = false := by
      revert h1; cases bytesLt a b <;> simp
    by_cases h2 : bytesLt b a = true
    · simp [h1f, h2]
    · have h2f : bytesLt b a = false := by
        revert h2; cases bytesLt b a <;> simp
      have hab : a = b := bytesLt_both_false h1f h2f
      subst hab
      rfl

theorem derive_iroh_keypair_order_independent_witness :
    (List.replicate 32 0).length = 32
    ∧ hexDecodeStr "00" = Except.ok [0]
    ∧ hexDecodeStr "ff" = Except.ok [255]
    ∧ derive_iroh_keypair witnessPrims (List.replicate 32 0) "00" "ff"
      = derive_iroh_keypair witnessPrims (List.replicate 32 0) "ff" "00" :=
  ⟨by decide, by decide, by decide,
    derive_iroh_keypair_order_independent witnessPrims (List.replicate 32 0)
      [0] [255] "00" "ff" (by decide) (by decide) (by decide)⟩

theorem pubkeyFromHex_valid (P : CryptoPrims) (s : String) (bs : List Nat)
    (h : pubkeyFromHex P s = some bs) : P.validXOnly bs = true := by
  unfold pubkeyFromHex at h
  split at h
  · cases h
  · split at h
    · rename_i hc
      cases h
      exact hc.2
    · cases h

/-- C2 counterexample: the canonical signed string is not built from
every non-signature field — two messages that differ in `version` and in
`msg_type` (all other fields equal) have the same canonical string, so
the signature covers neither of those fields. -/
theorem signedContent_ignores_version_and_type :
    ExchangeMessage.signedContent
        { version := 1, msg_type := "sneakernet-exchange", pubkey := "aa",
          their_pubkey := none, timestamp := 5, nonce := "bb", signature := "cc" }
      = ExchangeMessage.signedContent
        { version := 2, msg_type := "other", pubkey := "aa",
          their_pubkey := none, timestamp := 5, nonce := "bb", signature := "cc" }
    ∧ (1 : Nat) ≠ 2 ∧ "sneakernet-exchange" ≠ "other" :=
  ⟨rfl, by decide, by decide⟩

/-- C2 (amended): the Schnorr signature covers the canonical string
`sneakernet:{pubkey}:{their_pubkey or empty}:{timestamp}:{nonce}` — a
function of `pubkey`, `their_pubkey`, `timestamp` and `nonce` only, not
of `version` or `msg_type` — and the same canonical string is used both
when the message is constructed (`new` signs exactly the canonical
string of the message it returns) and when it is verified (`verify`
checks the signature against the canonical string rebuilt from the
message's own fields). -/
theorem exchange_signature_covers_canonical (P : CryptoPrims)
    (secret_key_bytes : List Nat) (pubkey : String)
    (their_pubkey : Option String) (timestamp : Nat) (nonce_bytes : List Nat) :
    (ExchangeMessage.new P secret_key_bytes pubkey their_pubkey timestamp nonce_bytes).signature
      = hexEncode (P.schnorrSign secret_key_bytes (P.sha256 (strBytes
          (ExchangeMessage.new P secret_key_bytes pubkey their_pubkey timestamp
            nonce_bytes).signedContent)))
    ∧ (∀ m : ExchangeMessage,
        m.signedContent = signingString m.pubkey m.their_pubkey m.timestamp m.nonce)
    ∧ (∀ (m : ExchangeMessage) (expected : Option String) (now : Nat),
        m.verify P expected now = Except.ok () →
        ∃ sender_pubkey sig_bytes,
          pubkeyFromHex P m.pubkey = some sender_pubkey
          ∧ hexDecodeStr m.signature = Except.ok sig_bytes
          ∧ P.schnorrVerify sig_bytes (P.sha256 (strBytes m.signedContent))
              sender_pubkey = true) := by
  refine ⟨rfl, fun m => rfl, ?_⟩
  intro m expected now h
  unfold ExchangeMessage.verify at h
  split at h
  · simp at h
  · split at h
    · simp at h
    · split at h
      · simp at h
      · rename_i sender_pubkey hpk
        split at h
        · simp at h
        · rename_i sig_bytes hsig
          split at h
          · simp at h
          · split at h
            · simp at h
            · split at h
              · simp at h
              · rename_i hlen hvalid hver
                refine ⟨sender_pubkey, sig_bytes, hpk, hsig, ?_⟩
                revert hver
                cases P.schnorrVerify sig_bytes
                    (P.sha256 (strBytes m.signedContent)) sender_pubkey <;> simp

theorem exchange_signature_covers_canonical_witness :
    (ExchangeMessage.new witnessPrims [] "aa" none 5 []).signature
      = hexEncode (witnessPrims.schnorrSign [] (witnessPrims.sha256 (strBytes
          (ExchangeMessage.new witnessPrims [] "aa" none 5 []).signedContent)))
    ∧ ∃ sender_pubkey sig_bytes,
        pubkeyFromHex witnessPrims exMsg0.pubkey = some sender_pubkey
        ∧ hexDecodeStr exMsg0.signature = Except.ok sig_bytes
        ∧ witnessPrims.schnorrVerify sig_bytes
            (witnessPrims.sha256 (strBytes exMsg0.signedContent)) sender_pubkey = true :=
  ⟨(exchange_signature_covers_canonical witnessPrims [] "aa" none 5 []).1,
   (exchange_signature_covers_canonical witnessPrims [] "aa" none 5 []).2.2
     exMsg0 none 1000 (by decide)⟩

/-- C3: once every earlier `verify` check passes, the result is the
`MessageExpired` error exactly when `now > timestamp` and
`now - timestamp > 300`; a message timestamped now, within the last 300
seconds, or in the future is not rejected as expired. -/
theorem verify_expired_iff (P : CryptoPrims) (m : ExchangeMessage)
    (expected : Option String) (now : Nat) (sender_pubkey sig_bytes : List Nat)
    (hv : m.version = PROTOCOL_VERSION)
    (ht : m.msg_type = "sneakernet-exchange")
    (hpk : pubkeyFromHex P m.pubkey = some sender_pubkey)
    (hsig : hexDecodeStr m.signature = Except.ok sig_bytes)
    (hlen : sig_bytes.length = 64)
    (hver : P.schnorrVerify sig_bytes (P.sha256 (strBytes m.signedContent))
        sender_pubkey = true)
    (hmatch : pubkeyMismatchCheck expected m.their_pubkey = false) :
    (m.verify P expected now = Except.error ExchangeError.MessageExpired
      ↔ (now > m.timestamp ∧ now - m.timestamp > 300))
    ∧ (¬ (now > m.timestamp ∧ now - m.timestamp > 300) →
        m.verify P expected now = Except.ok ()) := by
  have hvalid : P.validXOnly sender_pubkey = true :=
    pubkeyFromHex_valid P m.pubkey sender_pubkey hpk
  unfold ExchangeMessage.verify
  rw [hv]
  simp only [ne_eq, not_true_eq_false, if_false, ht, hpk, hsig, hlen, hvalid, hver,
    hmatch, if_true]
  by_cases hstale : now > m.timestamp ∧ now - m.timestamp > 300
  · simp [hstale]
  · simp [hstale]

theorem verify_expired_iff_witness :
    (exMsg0.verify witnessPrims none 1200 = Except.error ExchangeError.MessageExpired
      ↔ (1200 > exMsg0.timestamp ∧ 1200 - exMsg0.timestamp > 300))
    ∧ (¬ (1200 > exMsg0.timestamp ∧ 1200 - exMsg0.timestamp > 300) →
        exMsg0.verify witnessPrims none 1200 = Except.ok ()) :=
  verify_expired_iff witnessPrims exMsg0 none 1200 (List.replicate 32 0)
    (List.replicate 64 0) (by decide) (by decide) (by decide) (by decide)
    (by decide) (by decide) (by decide)

/-- C4: for an otherwise-valid message verified with an expected local
pubkey `X`, the result is the `PubkeyMismatch` error exactly when the
message names a counterpart `Y` with `Y ≠ X`, and verification succeeds
when `Y = X` or when no counterpart is named. -/
theorem verify_pubkey_mismatch_iff (P : CryptoPrims) (m : ExchangeMessage)
    (X : String) (now : Nat) (sender_pubkey sig_bytes : List Nat)
    (hv : m.version = PROTOCOL_VERSION)
    (ht : m.msg_type = "sneakernet-exchange")
    (hpk : pubkeyFromHex P m.pubkey = some sender_pubkey)
    (hsig : hexDecodeStr m.signature = Except.ok sig_bytes)
    (hlen : sig_bytes.length = 64)
    (hver : P.schnorrVerify sig_bytes (P.sha256 (strBytes m.signedContent))
        sender_pubkey = true)
    (hfresh : ¬ (now > m.timestamp ∧ now - m.timestamp > 300)) :
    (m.verify P (some X) now = Except.error ExchangeError.PubkeyMismatch
      ↔ ∃ Y, m.their_pubkey = some Y ∧ Y ≠ X)
    ∧ ((m.their_pubkey = some X ∨ m.their_pubkey = none) →
        m.verify P (some X) now = Except.ok ()) := by
  have hvalid : P.validXOnly sender_pubkey = true :=
    pubkeyFromHex_valid P m.pubkey sender_pubkey hpk
  unfold ExchangeMessage.verify
  rw [hv]
  simp only [ne_eq, not_true_eq_false, if_false, ht, hpk, hsig, hlen, hvalid, hver,
    if_true]
  cases hth : m.their_pubkey with
  | none => simp [pubkeyMismatchCheck, hfresh]
  | some Y =>
    by_cases hXY : Y = X
    · subst hXY
      simp [pubkeyMismatchCheck, hfresh]
    · simp [pubkeyMismatchCheck, hXY, hfresh]

theorem verify_pubkey_mismatch_iff_witness :
    ((exMsg1.verify witnessPrims (some "ab") 1000 = Except.error ExchangeError.PubkeyMismatch)
      ↔ ∃ Y, exMsg1.their_pubkey = some Y ∧ Y ≠ "ab")
    ∧ ((exMsg1.their_pubkey = some "ab" ∨ exMsg1.their_pubkey = none) →
        exMsg1.verify witnessPrims (some "ab") 1000 = Except.ok ()) :=
  verify_pubkey_mismatch_iff witnessPrims exMsg1 "ab" 1000 (List.replicate 32 0)
    (List.replicate 64 0) (by decide) (by decide) (by decide) (by decide)
    (by decide) (by decide) (by decide)

theorem takeExact_append (l r : List Nat) : takeExact l.length (l ++ r) = some (l, r) := by
  unfold takeExact
  rw [if_neg, List.take_left, List.drop_left]
  simp only [List.length_append]
  omega

theorem takeExact_of_le (n : Nat) (l : List Nat) (h : n ≤ l.length) :
    takeExact n l = some (l.take n, l.drop n) := by
  unfold takeExact
  rw [if_neg]
  omega

/-- C5: a received frame whose declared 4-byte big-endian length exceeds
65536 is rejected with `MessageTooLarge` whatever bytes follow the
prefix (in particular before any body byte is read), a declared length
of exactly 65536 is accepted (the body is read), and `send_frame`
rejects payloads longer than 65536 bytes with `MessageTooLarge`. -/
theorem frame_size_cap (a b c d : Nat) (body : List Nat) :
    (MAX_MESSAGE_SIZE < beU32 [a, b, c, d] →
      receive_frame ([a, b, c, d] ++ body) = Except.error ChatError.MessageTooLarge)
    ∧ (beU32 [a, b, c, d] = MAX_MESSAGE_SIZE → MAX_MESSAGE_SIZE ≤ body.length →
      receive_frame ([a, b, c, d] ++ body) = Except.ok (body.take MAX_MESSAGE_SIZE))
    ∧ (∀ data : List Nat, MAX_MESSAGE_SIZE < data.length →
      send_frame data = Except.error ChatError.MessageTooLarge) := by
  have hfour : takeExact 4 ([a, b, c, d] ++ body) = some ([a, b, c, d], body) := by
    have h := takeExact_append [a, b, c, d] body
    simpa using h
  refine ⟨?_, ?_, ?_⟩
  · intro hbig
    unfold receive_frame
    rw [hfour]
    simp only [if_pos hbig]
  · intro hexact hlen
    unfold receive_frame
    rw [hfour]
    simp [hexact, takeExact_of_le MAX_MESSAGE_SIZE body hlen]
  · intro data hbig
    unfold send_frame
    rw [if_pos hbig]

theorem frame_size_cap_witness :
    receive_frame ([0, 1, 0, 1] ++ []) = Except.error ChatError.MessageTooLarge
    ∧ receive_frame ([0, 1, 0, 0] ++ List.replicate 65536 7)
      = Except.ok (List.replicate 65536 7)
    ∧ send_frame (List.replicate 65537 0) = Except.error ChatError.MessageTooLarge := by
  refine ⟨(frame_size_cap 0 1 0 1 []).1 (by decide), ?_,
    (frame_size_cap 0 0 0 0 []).2.2 (List.replicate 65537 0)
      (by rw [List.length_replicate]; decide)⟩
  have h := (frame_size_cap 0 1 0 0 (List.replicate 65536 7)).2.1 (by decide)
    (by rw [List.length_replicate]; decide)
  rw [h, List.take_of_length_le (by rw [List.length_replicate]; decide)]

/-- C6: neither contact-list operation introduces a duplicate
counterpart pubkey: `complete_exchange` inserts the new contact (at the
front) only when no stored contact has that pubkey, and
`delete_contact` only filters entries, so the no-duplicate invariant is
preserved by both. -/
theorem contacts_nodup_preserved (contacts : List Contact)
    (their_pubkey iroh_endpoint_id id del_id : String) (now : Nat)
    (h : contactsNoDup contacts) :
    contactsNoDup (complete_exchange_contacts contacts their_pubkey
      iroh_endpoint_id id now).1
    ∧ contactsNoDup (delete_contact_list contacts del_id) := by
  constructor
  · unfold complete_exchange_contacts
    split
    · exact h
    · rename_i hex
      unfold contactsNoDup
      simp only [List.map_cons, List.nodup_cons]
      refine ⟨?_, h⟩
      intro hmem
      rcases List.mem_map.mp hmem with ⟨c, hc, hceq⟩
      apply hex
      refine List.any_eq_true.mpr ⟨c, hc, ?_⟩
      have : c.nostr_pubkey = their_pubkey := by
        simpa [Contact.new] using hceq
      simp [this]
  · unfold delete_contact_list contactsNoDup
    exact List.Nodup.sublist ((List.filter_sublist _).map _) h

theorem contacts_nodup_preserved_witness :
    contactsNoDup (complete_exchange_contacts [Contact.new "aa" "ep" "id1" 1]
      "bb" "ep2" "id2" 2).1
    ∧ contactsNoDup (delete_contact_list [Contact.new "aa" "ep" "id1" 1] "id1") :=
  (contacts_nodup_preserved [Contact.new "aa" "ep" "id1" 1] "bb" "ep2" "id2"
    "id1" 2 (by simp [contactsNoDup])).imp (fun h => h) (fun h => h)

/-- C7: `start_for_contact` on a node whose endpoint is already bound
returns the `AlreadyRunning` error and returns the node state exactly
unchanged (endpoint, current contact and connection table included). -/
theorem start_for_contact_already_running (P : CryptoPrims)
    (bind : List Nat → Except String Endpoint) (n : IrohNode)
    (secret : List Nat) (my_hex their_hex : String)
    (h : n.endpoint.isSome = true) :
    IrohNode.start_for_contact P bind n secret my_hex their_hex
      = (n, Except.error IrohError.AlreadyRunning) := by
  unfold IrohNode.start_for_contact
  rw [h]
  rfl

theorem start_for_contact_already_running_witness :
    nodeBound.endpoint.isSome = true
    ∧ IrohNode.start_for_contact witnessPrims (fun _ => Except.error "e") nodeBound
        (List.replicate 32 0) "00" "ff"
      = (nodeBound, Except.error IrohError.AlreadyRunning) :=
  ⟨by decide,
   start_for_contact_already_running witnessPrims (fun _ => Except.error "e")
     nodeBound (List.replicate 32 0) "00" "ff" (by decide)⟩

/-- C8: `stop` on a bound node drops the stored connections before
closing the endpoint (the effect trace is `dropConnections` then
`closeEndpoint`), succeeds, and afterwards `status` reports not
running, no node id, and an empty set of connected contacts. -/
theorem stop_drops_connections_before_endpoint (n : IrohNode)
    (h : n.endpoint.isSome = true) :
    n.stop.2.1 = [StopStep.dropConnections, StopStep.closeEndpoint]
    ∧ n.stop.2.2 = Except.ok ()
    ∧ n.stop.1.status
      = { running := false, node_id := none, relay_url := none,
          connected_contacts := [] } := by
  cases hep : n.endpoint with
  | none => rw [hep] at h; cases h
  | some e =>
    unfold IrohNode.stop
    rw [hep]
    refine ⟨rfl, rfl, ?_⟩
    simp [IrohNode.status]

theorem stop_drops_connections_before_endpoint_witness :
    nodeBound.stop.2.1 = [StopStep.dropConnections, StopStep.closeEndpoint]
    ∧ nodeBound.stop.2.2 = Except.ok ()
    ∧ nodeBound.stop.1.status
      = { running := false, node_id := none, relay_url := none,
          connected_contacts := [] } :=
  stop_drops_connections_before_endpoint nodeBound (by decide)

/-- C10: `stop` on an unbound node is a silent no-op returning success —
state unchanged, no effects — even though the `NotStarted` error kind
exists and is what `connect_to_contact` returns for the same unbound
state. -/
theorem stop_unbound_is_noop (n : IrohNode)
    (parse_node_id : String → Except String String)
    (connect : String → Except String Connection)
    (their_node_id contact_pubkey : String)
    (h : n.endpoint = none) :
    n.stop = (n, [], Except.ok ())
    ∧ (IrohNode.connect_to_contact parse_node_id connect n their_node_id
        contact_pubkey).2 = Except.error IrohError.NotStarted := by
  constructor
  · unfold IrohNode.stop
    rw [h]
  · unfold IrohNode.connect_to_contact
    rw [h]

theorem stop_unbound_is_noop_witness :
    nodeUnbound.stop = (nodeUnbound, [], Except.ok ())
    ∧ (IrohNode.connect_to_contact (fun s => Except.ok s)
        (fun _ => Except.ok { conn_id := 1 }) nodeUnbound "nid" "cc").2
      = Except.error IrohError.NotStarted :=
  stop_unbound_is_noop nodeUnbound (fun s => Except.ok s)
    (fun _ => Except.ok { conn_id := 1 }) "nid" "cc" (by decide)

theorem string_mk_data (s : String) : String.mk s.data = s := rfl

theorem string_data_mk (l : List Char) : (String.mk l).data = l := rfl

theorem take_four_cons (a b c d : Char) (l : List Char) :
    (a :: b :: c :: d :: l).take 4 = [a, b, c, d] := rfl

theorem drop_four_cons (a b c d : Char) (l : List Char) :
    (a :: b :: c :: d :: l).drop 4 = l := rfl

theorem take_cons_ne_null {c : Char} (h : c ≠ 'n') (l : List Char) :
    (c :: l).take 4 ≠ ['n', 'u', 'l', 'l'] := by
  rw [show (4 : Nat) = 3 + 1 from rfl, List.take_succ_cons]
  intro he
  injection he with h1 h2
  exact h h1

theorem hexVal_hexDigitChar {n : Nat} (h : n < 16) : hexVal (hexDigitChar n) = some n := by
  interval_cases n <;> rfl

theorem parseStrBody_quote (l : List Char) : parseStrBody ('\"' :: l) = some ([], l) := by
  conv_lhs => rw [parseStrBody.eq_def]
  simp

theorem parseStrBody_esc_quote (l : List Char) :
    parseStrBody ('\\' :: '\"' :: l) = consFst '\"' (parseStrBody l) := by
  conv_lhs => rw [parseStrBody.eq_def]
  simp

theorem parseStrBody_esc_back (l : List Char) :
    parseStrBody ('\\' :: '\\' :: l) = consFst '\\' (parseStrBody l) := by
  conv_lhs => rw [parseStrBody.eq_def]
  simp

theorem parseStrBody_esc_b (l : List Char) :
    parseStrBody ('\\' :: 'b' :: l) = consFst (Char.ofNat 8) (parseStrBody l) := by
  conv_lhs => rw [parseStrBody.eq_def]
  simp

theorem parseStrBody_esc_t (l : List Char) :
    parseStrBody ('\\' :: 't' :: l) = consFst (Char.ofNat 9) (parseStrBody l) := by
  conv_lhs => rw [parseStrBody.eq_def]
  simp

theorem parseStrBody_esc_n (l : List Char) :
    parseStrBody ('\\' :: 'n' :: l) = consFst (Char.ofNat 10) (parseStrBody l) := by
  conv_lhs => rw [parseStrBody.eq_def]
  simp

theorem parseStrBody_esc_f (l : List Char) :
    parseStrBody ('\\' :: 'f' :: l) = consFst (Char.ofNat 12) (parseStrBody l) := by
  conv_lhs => rw [parseStrBody.eq_def]
  simp

theorem parseStrBody_esc_r (l : List Char) :
    parseStrBody ('\\' :: 'r' :: l) = consFst (Char.ofNat 13) (parseStrBody l) := by
  conv_lhs => rw [parseStrBody.eq_def]
  simp

theorem parseStrBody_esc_u (a b c d : Char) (l : List Char) :
    parseStrBody ('\\' :: 'u' :: a :: b :: c :: d :: l) =
      (match hexVal a, hexVal b, hexVal c, hexVal d with
       | some x, some y, some z, some w =>
         if Nat.isValidChar (((x * 16 + y) * 16 + z) * 16 + w) then
           consFst (Char.ofNat (((x * 16 + y) * 16 + z) * 16 + w)) (parseStrBody l)
         else none
       | _, _, _, _ => none) := by
  conv_lhs => rw [parseStrBody.eq_def]
  simp

theorem parseStrBody_plain {c : Char} (h1 : c ≠ '\"') (h2 : c ≠ '\\') (l : List Char) :
    parseStrBody (c :: l) = consFst c (parseStrBody l) := by
  conv_lhs => rw [parseStrBody.eq_def]
  simp [h1, h2]

theorem parseStrBody_escape (s : List Char) : ∀ rest : List Char,
    parseStrBody (escapeList s ++ '\"' :: rest) = some (s, rest) := by
  induction s with
  | nil =>
    intro rest
    rw [escapeList, List.nil_append, parseStrBody_quote]
  | cons c cs ih =>
    intro rest
    rw [escapeList, List.append_assoc]
    unfold escapeChar
    split_ifs with h1 h2 h3 h4 h5 h6 h7 h8
    · subst h1
      rw [show (['\\', '\"'] : List Char) ++ (escapeList cs ++ '\"' :: rest)
            = '\\' :: '\"' :: (escapeList cs ++ '\"' :: rest) from rfl]
      rw [parseStrBody_esc_quote, ih]
      rfl
    · subst h2
      rw [show (['\\', '\\'] : List Char) ++ (escapeList cs ++ '\"' :: rest)
            = '\\' :: '\\' :: (escapeList cs ++ '\"' :: rest) from rfl]
      rw [parseStrBody_esc_back, ih]
      rfl
    · have hc : Char.ofNat 8 = c := by rw [← h3, Char.ofNat_toNat]
      rw [show (['\\', 'b'] : List Char) ++ (escapeList cs ++ '\"' :: rest)
            = '\\' :: 'b' :: (escapeList cs ++ '\"' :: rest) from rfl]
      rw [parseStrBody_esc_b, ih, hc]
      rfl
    · have hc : Char.ofNat 9 = c := by rw [← h4, Char.ofNat_toNat]
      rw [show (['\\', 't'] : List Char) ++ (escapeList cs ++ '\"' :: rest)
            = '\\' :: 't' :: (escapeList cs ++ '\"' :: rest) from rfl]
      rw [parseStrBody_esc_t, ih, hc]
      rfl
    · have hc : Char.ofNat 10 = c := by rw [← h5, Char.ofNat_toNat]
      rw [show (['\\', 'n'] : List Char) ++ (escapeList cs ++ '\"' :: rest)
            = '\\' :: 'n' :: (escapeList cs ++ '\"' :: rest) from rfl]
      rw [parseStrBody_esc_n, ih, hc]
      rfl
    · have hc : Char.ofNat 12 = c := by rw [← h6, Char.ofNat_toNat]
      rw [show (['\\', 'f'] : List Char) ++ (escapeList cs ++ '\"' :: rest)
            = '\\' :: 'f' :: (escapeList cs ++ '\"' :: rest) from rfl]
      rw [parseStrBody_esc_f, ih, hc]
      rfl
    · have hc : Char.ofNat 13 = c := by rw [← h7, Char.ofNat_toNat]
      rw [show (['\\', 'r'] : List Char) ++ (escapeList cs ++ '\"' :: rest)
            = '\\' :: 'r' :: (escapeList cs ++ '\"' :: rest) from rfl]
      rw [parseStrBody_esc_r, ih, hc]
      rfl
    · rw [show (['\\', 'u', '0', '0', hexDigitChar (c.toNat / 16),
              hexDigitChar (c.toNat % 16)] : List Char)
            ++ (escapeList cs ++ '\"' :: rest)
            = '\\' :: 'u' :: '0' :: '0' :: hexDigitChar (c.toNat / 16)
              :: hexDigitChar (c.toNat % 16) :: (escapeList cs ++ '\"' :: rest) from rfl]
      rw [parseStrBody_esc_u]
      rw [show hexVal '0' = some 0 from rfl]
      rw [hexVal_hexDigitChar (show c.toNat / 16 < 16 by omega)]
      rw [hexVal_hexDigitChar (show c.toNat % 16 < 16 by omega)]
      simp only []
      have harith : ((0 * 16 + 0) * 16 + c.toNat / 16) * 16 + c.toNat % 16 = c.toNat := by
        omega
      rw [harith]
      have hvalid : Nat.isValidChar c.toNat := Or.inl (by omega)
      rw [if_pos hvalid, ih, Char.ofNat_toNat]
      rfl
    · rw [show ([c] : List Char) ++ (escapeList cs ++ '\"' :: rest)
            = c :: (escapeList cs ++ '\"' :: rest) from rfl]
      rw [parseStrBody_plain h1 h2, ih]
      rfl

theorem parseStringValue_strLit (s : String) (rest : List Char) :
    parseStringValue (strLit s ++ rest) = some (s, rest) := by
  have hshape : strLit s ++ rest = '\"' :: (escapeList s.data ++ '\"' :: rest) := by
    simp [strLit, List.cons_append, List.append_assoc, List.singleton_append]
  rw [hshape]
  unfold parseStringValue
  simp [parseStrBody_escape, string_mk_data]

theorem digit_char_toNat {m : Nat} (h : m < 10) :
    (Char.ofNat (48 + m)).toNat = 48 + m := by
  interval_cases m <;> rfl

theorem digit_char_isDigit {m : Nat} (h : m < 10) :
    isDigitChar (Char.ofNat (48 + m)) = true := by
  interval_cases m <;> rfl

theorem natChars_spec (n : Nat) :
    (∀ c ∈ natChars n, isDigitChar c = true)
    ∧ digitsVal (natChars n) = n ∧ natChars n ≠ [] := by
  induction n using Nat.strong_induction_on with
  | _ n ih =>
    by_cases h : n < 10
    · unfold natChars
      rw [if_pos h]
      refine ⟨?_, ?_, by simp⟩
      · intro c hc
        rw [List.mem_singleton] at hc
        subst hc
        exact digit_char_isDigit h
      · show List.foldl (fun a c => a * 10 + (c.toNat - 48)) 0 [Char.ofNat (48 + n)] = n
        rw [List.foldl_cons, List.foldl_nil, digit_char_toNat h]
        omega
    · unfold natChars
      rw [if_neg h]
      have hlt : n / 10 < n := Nat.div_lt_self (by omega) (by omega)
      obtain ⟨hdig, hval, hne⟩ := ih (n / 10) hlt
      have hm : n % 10 < 10 := Nat.mod_lt _ (by omega)
      refine ⟨?_, ?_, by simp⟩
      · intro c hc
        rw [List.mem_append, List.mem_singleton] at hc
        rcases hc with hc | hc
        · exact hdig c hc
        · subst hc
          exact digit_char_isDigit hm
      · show List.foldl (fun a c => a * 10 + (c.toNat - 48)) 0
          (natChars (n / 10) ++ [Char.ofNat (48 + n % 10)]) = n
        rw [List.foldl_append, List.foldl_cons, List.foldl_nil]
        have hv : List.foldl (fun a c => a * 10 + (c.toNat - 48)) 0 (natChars (n / 10))
            = n / 10 := hval
        rw [hv, digit_char_toNat hm]
        omega

theorem takeWhile_digits_append (l : List Char) (r : List Char)
    (hl : ∀ c ∈ l, isDigitChar c = true)
    (hr : ∀ c t, r = c :: t → isDigitChar c = false) :
    (l ++ r).takeWhile isDigitChar = l ∧ (l ++ r).dropWhile isDigitChar = r := by
  induction l with
  | nil =>
    rw [List.nil_append]
    cases r with
    | nil => exact ⟨rfl, rfl⟩
    | cons c t =>
      rw [List.takeWhile_cons, List.dropWhile_cons, hr c t rfl]
      simp
  | cons x xs ih =>
    have hx : isDigitChar x = true := hl x (List.mem_cons_self x xs)
    have hxs : ∀ c ∈ xs, isDigitChar c = true := fun c hc =>
      hl c (List.mem_cons_of_mem x hc)
    obtain ⟨h1, h2⟩ := ih hxs
    rw [List.cons_append, List.takeWhile_cons, List.dropWhile_cons, hx]
    simp only [if_true]
    rw [h1, h2]
    exact ⟨rfl, rfl⟩

theorem parseNat_natChars (n : Nat) (r : List Char)
    (hr : ∀ c t, r = c :: t → isDigitChar c = false) :
    parseNat (natChars n ++ r) = some (n, r) := by
  obtain ⟨hdig, hval, hne⟩ := natChars_spec n
  obtain ⟨ht, hd⟩ := takeWhile_digits_append (natChars n) r hdig hr
  unfold parseNat
  simp only [ht, hd]
  rw [if_neg (by rw [List.length_eq_zero]; exact hne)]
  rw [hval]

theorem parseNat_natChars_comma (n : Nat) (r : List Char) :
    parseNat (natChars n ++ ',' :: r) = some (n, ',' :: r) :=
  parseNat_natChars n _ (by intro c t h; injection h with h1 h2; subst h1; rfl)

theorem parseNat_natChars_brace (n : Nat) (r : List Char) :
    parseNat (natChars n ++ '\x7d' :: r) = some (n, '\x7d' :: r) :=
  parseNat_natChars n _ (by intro c t h; injection h with h1 h2; subst h1; rfl)

theorem parseOptString_lit (o : Option String) (rest : List Char) :
    parseOptString (optStrLit o ++ rest) = some (o, rest) := by
  cases o with
  | none =>
    show parseOptString (['n', 'u', 'l', 'l'] ++ rest) = some (none, rest)
    rw [show (['n', 'u', 'l', 'l'] : List Char) ++ rest
          = 'n' :: 'u' :: 'l' :: 'l' :: rest from rfl]
    unfold parseOptString
    rw [if_pos (take_four_cons 'n' 'u' 'l' 'l' rest), drop_four_cons]
  | some s =>
    show parseOptString (strLit s ++ rest) = some (some s, rest)
    have hshape : strLit s ++ rest = '\"' :: (escapeList s.data ++ '\"' :: rest) := by
      simp [strLit, List.cons_append, List.append_assoc, List.singleton_append]
    unfold parseOptString
    rw [if_neg (by rw [hshape]; exact take_cons_ne_null (by decide) _)]
    rw [parseStringValue_strLit]

theorem parseExFields_print (m : ExchangeMessage) (k : Nat) :
    parseExFields (k + 7) (exchangeFieldsChars m) {} =
      some ({ version := some m.version, msg_type := some m.msg_type,
              pubkey := some m.pubkey, their_pubkey := some m.their_pubkey,
              timestamp := some m.timestamp, nonce := some m.nonce,
              signature := some m.signature }, []) := by
  simp only [exchangeFieldsChars, List.append_assoc, List.cons_append,
    List.singleton_append, List.nil_append]
  simp only [parseExFields, parseStringValue_strLit, parseNat_natChars_comma,
    parseOptString_lit, if_true, if_false, reduceIte, List.cons_append,
    List.append_assoc, List.nil_append,
    (show ¬(("type" : String) = "version") by decide),
    (show ¬(("pubkey" : String) = "version") by decide),
    (show ¬(("pubkey" : String) = "type") by decide),
    (show ¬(("theirPubkey" : String) = "version") by decide),
    (show ¬(("theirPubkey" : String) = "type") by decide),
    (show ¬(("theirPubkey" : String) = "pubkey") by decide),
    (show ¬(("timestamp" : String) = "version") by decide),
    (show ¬(("timestamp" : String) = "type") by decide),
    (show ¬(("timestamp" : String) = "pubkey") by decide),
    (show ¬(("timestamp" : String) = "theirPubkey") by decide),
    (show ¬(("nonce" : String) = "version") by decide),
    (show ¬(("nonce" : String) = "type") by decide),
    (show ¬(("nonce" : String) = "pubkey") by decide),
    (show ¬(("nonce" : String) = "theirPubkey") by decide),
    (show ¬(("nonce" : String) = "timestamp") by decide),
    (show ¬(("signature" : String) = "version") by decide),
    (show ¬(("signature" : String) = "type") by decide),
    (show ¬(("signature" : String) = "pubkey") by decide),
    (show ¬(("signature" : String) = "theirPubkey") by decide),
    (show ¬(("signature" : String) = "timestamp") by decide),
    (show ¬(("signature" : String) = "nonce") by decide),
    (show ¬(('\x7d' : Char) = ',') by decide)]

theorem from_json_to_json (m : ExchangeMessage) :
    ExchangeMessage.from_json (ExchangeMessage.to_json m) = Except.ok m := by
  unfold ExchangeMessage.to_json ExchangeMessage.from_json
  rw [string_data_mk]
  rw [show exchangeJsonChars m = '\x7b' :: exchangeFieldsChars m from rfl]
  simp only [from_jsonChars]
  rw [if_pos trivial]
  obtain ⟨j, hj⟩ : ∃ j, (exchangeFieldsChars m).length + 1 = j + 7 := by
    refine ⟨(exchangeFieldsChars m).length - 6, ?_⟩
    have h6 : 6 ≤ (exchangeFieldsChars m).length := by
      unfold exchangeFieldsChars
      simp only [List.length_append]
      have h9 : (strLit "version").length = 9 := rfl
      omega
    omega
  rw [hj, parseExFields_print]
  rfl

theorem parseWireFields_print (w : WireMessage) (k : Nat) :
    parseWireFields (k + 3) (wireFieldsChars w) {} =
      some ({ id := some w.id, content := some w.content,
              timestamp := some w.timestamp }, []) := by
  simp only [wireFieldsChars, List.append_assoc, List.cons_append,
    List.singleton_append, List.nil_append]
  simp only [parseWireFields, parseStringValue_strLit, parseNat_natChars_brace,
    if_true, if_false, reduceIte, List.cons_append, List.append_assoc,
    List.nil_append,
    (show ¬(("content" : String) = "id") by decide),
    (show ¬(("timestamp" : String) = "id") by decide),
    (show ¬(("timestamp" : String) = "content") by decide),
    (show ¬(('\x7d' : Char) = ',') by decide)]

theorem from_wire_to_wire (m : ChatMessage) (sender : String) :
    ChatMessage.from_wire (ChatMessage.to_wire m) sender
      = Except.ok { id := m.id, content := m.content, sender_pubkey := sender,
                    timestamp := m.timestamp, is_outgoing := false } := by
  unfold ChatMessage.to_wire ChatMessage.from_wire
  rw [string_data_mk]
  rw [show wireJsonChars (WireMessage.mk m.id m.content m.timestamp)
        = '\x7b' :: wireFieldsChars (WireMessage.mk m.id m.content m.timestamp)
        from rfl]
  simp only [from_wireChars]
  rw [if_pos trivial]
  obtain ⟨j, hj⟩ : ∃ j,
      (wireFieldsChars (WireMessage.mk m.id m.content m.timestamp)).length + 1
        = j + 3 := by
    refine ⟨(wireFieldsChars (WireMessage.mk m.id m.content m.timestamp)).length
      - 2, ?_⟩
    have h2 : 2 ≤ (wireFieldsChars
        (WireMessage.mk m.id m.content m.timestamp)).length := by
      unfold wireFieldsChars
      simp only [List.length_append]
      have h4 : (strLit "id").length = 4 := rfl
      omega
    omega
  rw [hj, parseWireFields_print]
  rfl

/-- C9: serde round-trips are lossless — `from_json (to_json m)`
succeeds and returns a message equal to `m` in every field, and decoding
a chat message's wire encoding recovers the wire-relevant fields `id`,
`content` and `timestamp` unchanged (while the sender is taken from the
connection's contact key and the direction is incoming). -/
theorem serde_roundtrip :
    (∀ m : ExchangeMessage,
      ExchangeMessage.from_json (ExchangeMessage.to_json m) = Except.ok m)
    ∧ (∀ (m : ChatMessage) (sender : String),
        ChatMessage.from_wire (ChatMessage.to_wire m) sender
          = Except.ok { id := m.id, content := m.content,
                        sender_pubkey := sender, timestamp := m.timestamp,
                        is_outgoing := false }) :=
  ⟨from_json_to_json, from_wire_to_wire⟩
